import Mathlib

/-!
Verification of the Memoria Scholae reasoning services: a shallow embedding of
the memory-strength model, the graph reasoning operations, the fusion layer's
cognitive-load classifier and the multi-agent collaboration score, together
with theorems settling the specification's claims about them.
-/

/-! ## Memory strength model (services/memory_consolidation.py) -/

/-- The `content.timestamp` field of a memory as seen by
`calculate_memory_strength`: missing (falsy), present but unparseable
(raises on parse, caught by the handler), or parsed to a point in time,
modelled as seconds on a real time axis. -/
inductive TimestampField where
  | absent
  | unparseable
  | parsed (t : ℝ)

/-- The slice of a memory record that `calculate_memory_strength` reads:
`content.timestamp` and `metadata.access_count` (absent modelled as `none`). -/
structure Memory where
  timestamp : TimestampField
  access_count : Option ℕ

/-- Embedding of `MemoryConsolidationService.calculate_memory_strength`.
Missing timestamp returns the 0.5 default; an unparseable timestamp raises
inside the `try` block and the handler returns 0.5; otherwise the Ebbinghaus
retention `min(1.0, exp(-elapsed_days / ((log(access_count+1)+1) * 30)))` is
returned, with `access_count` defaulting to 1. Time is in seconds, so elapsed
days are `(current_time - memory_time) / 86400` as in the source. -/
noncomputable def calculate_memory_strength (memory : Memory) (current_time : ℝ) : ℝ :=
  match memory.timestamp with
  | .absent => 0.5
  | .unparseable => 0.5
  | .parsed memory_time =>
    let time_elapsed : ℝ := (current_time - memory_time) / 86400
    let access_count : ℕ := memory.access_count.getD 1
    let strength : ℝ := Real.log ((access_count : ℝ) + 1) + 1
    let retention : ℝ := Real.exp (-time_elapsed / (strength * 30))
    min 1.0 retention

/-- The strength formula exactly as the specification words it: 0.5 when the
timestamp is missing or unparseable, otherwise
`min(1.0, exp(-elapsed_days / ((ln(access_count+1)+1) * 30)))` with
`access_count` defaulting to 1. -/
noncomputable def strength_spec (memory : Memory) (now : ℝ) : ℝ :=
  match memory.timestamp with
  | .parsed t =>
    min 1.0 (Real.exp (-((now - t) / 86400) /
      ((Real.log (((memory.access_count.getD 1 : ℕ) : ℝ) + 1) + 1) * 30)))
  | _ => 0.5

lemma log_succ_add_one_pos (n : ℕ) : 0 < Real.log ((n : ℝ) + 1) + 1 := by
  have h : (0 : ℝ) ≤ Real.log ((n : ℝ) + 1) := by
    apply Real.log_nonneg
    have : (0 : ℝ) ≤ (n : ℝ) := Nat.cast_nonneg n
    linarith
  linarith

lemma min_one_exp_of_nonneg (x : ℝ) (hx : 0 ≤ x) : min (1.0 : ℝ) (Real.exp x) = 1 := by
  have h1 : (1.0 : ℝ) ≤ Real.exp x := by
    have := Real.one_le_exp hx
    norm_num
    linarith
  rw [min_eq_left h1]
  norm_num

/-- For a memory whose timestamp is not in the past, the retention exponent is
nonnegative, so the capped strength is exactly 1. -/
lemma strength_eq_one_of_future (t now : ℝ) (ac : Option ℕ) (h : now ≤ t) :
    calculate_memory_strength ⟨.parsed t, ac⟩ now = 1 := by
  show min 1.0 (Real.exp (-((now - t) / 86400) /
      ((Real.log (((ac.getD 1 : ℕ) : ℝ) + 1) + 1) * 30))) = 1
  apply min_one_exp_of_nonneg
  apply div_nonneg
  · have h2 : now - t ≤ 0 := by linarith
    have h3 : (now - t) / 86400 ≤ 0 :=
      div_nonpos_of_nonpos_of_nonneg h2 (by norm_num)
    linarith
  · have hp := log_succ_add_one_pos (ac.getD 1)
    positivity

/-- Claim C1: `calculate_memory_strength` returns exactly the documented
forgetting-curve formula `min(1.0, exp(-elapsed_days/((ln(access_count+1)+1)*30)))`
(with `access_count` defaulting to 1), returns 0.5 when the timestamp is
missing or unparseable, and its result always lies in [0,1]; the embedding is
a total function, matching the guarantee that the source never raises. -/
theorem c1_strength_formula_and_bounds (memory : Memory) (now : ℝ) :
    calculate_memory_strength memory now = strength_spec memory now ∧
    0 ≤ calculate_memory_strength memory now ∧
    calculate_memory_strength memory now ≤ 1 := by
  refine ⟨?_, ?_, ?_⟩
  · cases h : memory.timestamp <;>
      simp [calculate_memory_strength, strength_spec, h]
  · cases h : memory.timestamp <;>
      simp only [calculate_memory_strength, h] <;>
      positivity
  · cases h : memory.timestamp
    · norm_num [calculate_memory_strength, h]
    · norm_num [calculate_memory_strength, h]
    · simp only [calculate_memory_strength, h]
      exact le_trans (min_le_left _ _) (by norm_num)

/-- Claim C2 counterexample: two memories with equal access_count whose
timestamps lie in the future (elapsed time -1 day versus -2 days) both get
strength exactly 1, because the retention is capped by `min(1.0, ...)`; so
the strength is NOT strictly decreasing as elapsed time increases. -/
theorem c2_counterexample :
    ¬ (calculate_memory_strength ⟨.parsed 86400, none⟩ 0 <
       calculate_memory_strength ⟨.parsed (2 * 86400), none⟩ 0) := by
  rw [strength_eq_one_of_future 86400 0 none (by norm_num),
      strength_eq_one_of_future (2 * 86400) 0 none (by norm_num)]
  exact lt_irrefl 1

/-- Claim C2 (amended): for memories whose timestamps are not in the future
(nonnegative elapsed time), the strength is strictly decreasing as elapsed
time increases at fixed access_count; and at fixed elapsed time the strength
is non-decreasing in access_count (this part holds unconditionally). -/
theorem c2_amended_monotonicity :
    (∀ (t1 t2 now : ℝ) (ac : Option ℕ), t1 ≤ now → t2 < t1 →
      calculate_memory_strength ⟨.parsed t2, ac⟩ now <
        calculate_memory_strength ⟨.parsed t1, ac⟩ now) ∧
    (∀ (t now : ℝ) (ac1 ac2 : ℕ), ac1 ≤ ac2 →
      calculate_memory_strength ⟨.parsed t, some ac1⟩ now ≤
        calculate_memory_strength ⟨.parsed t, some ac2⟩ now) := by
  constructor
  · intro t1 t2 now ac h1 h2
    show min 1.0 (Real.exp (-((now - t2) / 86400) /
        ((Real.log (((ac.getD 1 : ℕ) : ℝ) + 1) + 1) * 30))) <
      min 1.0 (Real.exp (-((now - t1) / 86400) /
        ((Real.log (((ac.getD 1 : ℕ) : ℝ) + 1) + 1) * 30)))
    have hs : 0 < Real.log (((ac.getD 1 : ℕ) : ℝ) + 1) + 1 := log_succ_add_one_pos _
    have hd : (0 : ℝ) < (Real.log (((ac.getD 1 : ℕ) : ℝ) + 1) + 1) * 30 := by positivity
    have he2pos : 0 < (now - t2) / 86400 := by
      apply div_pos (by linarith) (by norm_num)
    have hx : -((now - t2) / 86400) / ((Real.log (((ac.getD 1 : ℕ) : ℝ) + 1) + 1) * 30) <
        -((now - t1) / 86400) / ((Real.log (((ac.getD 1 : ℕ) : ℝ) + 1) + 1) * 30) := by
      apply div_lt_div_of_pos_right ?_ hd
      have : (now - t1) / 86400 < (now - t2) / 86400 := by
        apply div_lt_div_of_pos_right (by linarith) (by norm_num)
      linarith
    have hexp2 : Real.exp (-((now - t2) / 86400) /
        ((Real.log (((ac.getD 1 : ℕ) : ℝ) + 1) + 1) * 30)) < 1 := by
      apply Real.exp_lt_one_iff.mpr
      apply div_neg_of_neg_of_pos (by linarith) hd
    have hexp2' : Real.exp (-((now - t2) / 86400) /
        ((Real.log (((ac.getD 1 : ℕ) : ℝ) + 1) + 1) * 30)) < 1.0 :=
      lt_of_lt_of_le hexp2 (by norm_num)
    rw [min_eq_right (le_of_lt hexp2')]
    exact lt_min hexp2' (Real.exp_lt_exp.mpr hx)
  · intro t now ac1 ac2 hle
    show min 1.0 (Real.exp (-((now - t) / 86400) /
        ((Real.log ((((some ac1).getD 1 : ℕ) : ℝ) + 1) + 1) * 30))) ≤
      min 1.0 (Real.exp (-((now - t) / 86400) /
        ((Real.log ((((some ac2).getD 1 : ℕ) : ℝ) + 1) + 1) * 30)))
    simp only [Option.getD_some]
    have hs1 : 0 < Real.log ((ac1 : ℝ) + 1) + 1 := log_succ_add_one_pos _
    have hs2 : 0 < Real.log ((ac2 : ℝ) + 1) + 1 := log_succ_add_one_pos _
    have hss : Real.log ((ac1 : ℝ) + 1) + 1 ≤ Real.log ((ac2 : ℝ) + 1) + 1 := by
      have hcast : ((ac1 : ℝ) + 1) ≤ ((ac2 : ℝ) + 1) := by
        have : (ac1 : ℝ) ≤ (ac2 : ℝ) := Nat.cast_le.mpr hle
        linarith
      have := Real.log_le_log (by positivity) hcast
      linarith
    rcases le_or_lt 0 ((now - t) / 86400) with he | he
    · apply min_le_min le_rfl
      apply Real.exp_le_exp.mpr
      rw [div_le_div_iff₀ (by positivity) (by positivity)]
      nlinarith
    · rw [min_one_exp_of_nonneg, min_one_exp_of_nonneg]
      · apply div_nonneg (by linarith) (by positivity)
      · apply div_nonneg (by linarith) (by positivity)

/-- Claim C2 amended witness: a concrete instance of both monotonicity parts,
at elapsed times 0 and 1 day and access counts 1 and 5. -/
theorem c2_amended_witness :
    calculate_memory_strength ⟨.parsed 0, none⟩ 86400 <
      calculate_memory_strength ⟨.parsed 86400, none⟩ 86400 ∧
    calculate_memory_strength ⟨.parsed 0, some 1⟩ 86400 ≤
      calculate_memory_strength ⟨.parsed 0, some 5⟩ 86400 :=
  ⟨c2_amended_monotonicity.1 86400 0 86400 none le_rfl (by norm_num),
   c2_amended_monotonicity.2 0 86400 1 5 (by norm_num)⟩

/-! ## Concept evolution tracking (services/memory_consolidation.py) -/

/-- One timeline entry built by `track_concept_evolution` for a memory whose
key concepts match the queried concept. -/
structure EvolutionEntry where
  timestamp : String
  paper_id : Option String
  title : Option String
deriving DecidableEq

/-- The metrics part of the record returned by `track_concept_evolution`. -/
structure EvolutionReport where
  first_encountered : Option String
  total_exposures : ℕ
  evolution_score : ℚ
  mastery_level : String
deriving DecidableEq

/-- Embedding of `MemoryConsolidationService._calculate_mastery`. -/
def _calculate_mastery (exposure_count : ℕ) : String :=
  if exposure_count ≥ 10 then "expert"
  else if exposure_count ≥ 5 then "proficient"
  else if exposure_count ≥ 2 then "familiar"
  else "novice"

/-- Embedding of `track_concept_evolution` from the matching timeline on:
sorts the entries chronologically (a stable sort, like Python's `list.sort`),
then reports first-seen timestamp, total exposures,
`evolution_score = min(1.0, exposures * 0.1)` and the mastery label. -/
def track_concept_evolution (timeline : List EvolutionEntry) : EvolutionReport :=
  let sorted := List.insertionSort (fun a b => a.timestamp ≤ b.timestamp) timeline
  let evolution_score : ℚ := (sorted.length : ℚ) * 0.1
  { first_encountered := sorted.head?.map (fun e => e.timestamp)
    total_exposures := sorted.length
    evolution_score := min 1.0 evolution_score
    mastery_level := _calculate_mastery sorted.length }

/-- Claim C6: with n matching exposures, `track_concept_evolution` reports
`evolution_score = min(1.0, n * 0.1)` and a boundary-exact mastery label
(n ≥ 10 expert, n ≥ 5 proficient, n ≥ 2 familiar, else novice); in particular
n = 0 novice, n = 2 familiar, n = 5 proficient, n = 10 expert, and 12
exposures give expert with score 1.0. -/
theorem c6_evolution_score_and_mastery :
    (∀ timeline : List EvolutionEntry,
      (track_concept_evolution timeline).total_exposures = timeline.length ∧
      (track_concept_evolution timeline).evolution_score =
        min 1.0 ((timeline.length : ℚ) * 0.1) ∧
      (track_concept_evolution timeline).mastery_level =
        (if timeline.length ≥ 10 then "expert"
         else if timeline.length ≥ 5 then "proficient"
         else if timeline.length ≥ 2 then "familiar" else "novice")) ∧
    (track_concept_evolution []).mastery_level = "novice" ∧
    (track_concept_evolution (List.replicate 2 ⟨"", none, none⟩)).mastery_level = "familiar" ∧
    (track_concept_evolution (List.replicate 5 ⟨"", none, none⟩)).mastery_level = "proficient" ∧
    (track_concept_evolution (List.replicate 10 ⟨"", none, none⟩)).mastery_level = "expert" ∧
    (track_concept_evolution (List.replicate 12 ⟨"", none, none⟩)).mastery_level = "expert" ∧
    (track_concept_evolution (List.replicate 12 ⟨"", none, none⟩)).evolution_score = 1 := by
  have huniv : ∀ timeline : List EvolutionEntry,
      (track_concept_evolution timeline).total_exposures = timeline.length ∧
      (track_concept_evolution timeline).evolution_score =
        min 1.0 ((timeline.length : ℚ) * 0.1) ∧
      (track_concept_evolution timeline).mastery_level =
        (if timeline.length ≥ 10 then "expert"
         else if timeline.length ≥ 5 then "proficient"
         else if timeline.length ≥ 2 then "familiar" else "novice") := by
    intro timeline
    refine ⟨?_, ?_, ?_⟩ <;>
      simp [track_concept_evolution, _calculate_mastery, List.length_insertionSort]
  refine ⟨huniv, ?_, ?_, ?_, ?_, ?_, ?_⟩
  · rw [(huniv _).2.2]; norm_num
  · rw [(huniv _).2.2]; norm_num
  · rw [(huniv _).2.2]; norm_num
  · rw [(huniv _).2.2]; norm_num
  · rw [(huniv _).2.2]; norm_num
  · rw [(huniv _).2.1]; norm_num [min_def]

/-! ## Cognitive load classification (services/memory_graph_fusion.py) -/

/-- The slice of a recent-context memory that `cognitive_load_optimizer`
reads: `content.type` and `content.title`. -/
structure FusionMemory where
  content_type : Option String
  title : Option String
deriving DecidableEq

/-- `papers_today` as computed by `cognitive_load_optimizer`: the number of
recent (last 24h) memories whose `content.type` is `"paper_reading"`. -/
def papers_today (recent_memories : List FusionMemory) : ℕ :=
  (recent_memories.filter (fun m => m.content_type = some "paper_reading")).length

/-- The `current_load.load_level` expression of `cognitive_load_optimizer`:
`"high" if papers_today > 5 else "optimal" if papers_today <= 3 else "moderate"`. -/
def load_level (papers : ℕ) : String :=
  if papers > 5 then "high" else if papers ≤ 3 then "optimal" else "moderate"

/-- `cognitive_load_optimizer`'s reading-load classification of the last 24
hours, from the recent memories to the reported `load_level`. -/
def cognitive_load_level (recent_memories : List FusionMemory) : String :=
  load_level (papers_today recent_memories)

/-- Claim C5 counterexample: with exactly one paper read in the last 24 hours
the code classifies the load as "optimal", not "moderate" as the claim
(optimal only at 0 papers) would require. -/
theorem c5_counterexample :
    cognitive_load_level [⟨some "paper_reading", none⟩] = "optimal" ∧
    cognitive_load_level [⟨some "paper_reading", none⟩] ≠ "moderate" := by
  decide

/-- Claim C5 (amended): the load level of the last 24 hours is "high" when
more than 5 papers were read, "optimal" when at most 3 (including 0) were
read, and "moderate" when 4 or 5 were read; only memories of type
"paper_reading" are counted. -/
theorem c5_amended_load_classification :
    (∀ recent : List FusionMemory,
      cognitive_load_level recent =
        (if papers_today recent > 5 then "high"
         else if papers_today recent ≤ 3 then "optimal" else "moderate")) ∧
    cognitive_load_level [] = "optimal" ∧
    cognitive_load_level (List.replicate 4 ⟨some "paper_reading", none⟩) = "moderate" ∧
    cognitive_load_level (List.replicate 5 ⟨some "paper_reading", none⟩) = "moderate" ∧
    cognitive_load_level (List.replicate 6 ⟨some "paper_reading", none⟩) = "high" ∧
    papers_today [⟨none, none⟩, ⟨some "annotation", none⟩] = 0 := by
  refine ⟨fun recent => rfl, by decide, by decide, by decide, by decide, by decide⟩

/-! ## Multi-agent collaboration score (services/multi_agent.py) -/

/-- Python's `round(q, 2)` on the score values produced here: none of them is
an exact half-hundredth (the only non-hundredth contribution is `40h/3` with
h not divisible by 3, whose thousandths are 1/3 or 2/3), so half-to-even and
round-half-up agree and rounding to an integer number of hundredths is exact. -/
def round2 (q : ℚ) : ℚ := (round (q * 100) : ℚ) / 100

/-- Embedding of `MultiAgentOrchestrator._calculate_collaboration_score`. -/
def _calculate_collaboration_score
    (papers patterns hypotheses : List String) : ℚ :=
  let score : ℚ := 0
  let score := score + min ((papers.length : ℚ) / 10) 1.0 * 0.3
  let score := score + min ((patterns.length : ℚ) / 5) 1.0 * 0.3
  let score := score + min ((hypotheses.length : ℚ) / 3) 1.0 * 0.4
  round2 score

/-- Claim C7: the collaboration score equals
`min(p/10,1)*0.3 + min(t/5,1)*0.3 + min(h/3,1)*0.4` rounded to 2 decimals,
and with 10 papers, 5 patterns and 3 hypotheses it is exactly 1.0. -/
theorem c7_collaboration_score :
    (∀ papers patterns hypotheses : List String,
      _calculate_collaboration_score papers patterns hypotheses =
        round2 (min ((papers.length : ℚ) / 10) 1 * 0.3 +
          min ((patterns.length : ℚ) / 5) 1 * 0.3 +
          min ((hypotheses.length : ℚ) / 3) 1 * 0.4)) ∧
    _calculate_collaboration_score (List.replicate 10 "p") (List.replicate 5 "q")
      (List.replicate 3 "r") = 1 := by
  constructor
  · intro papers patterns hypotheses
    show round2 _ = round2 _
    norm_num
  · show round2 _ = 1
    norm_num [round2]

/-! ## Graph reasoning engine (services/graph_reasoning.py)

Each operation runs inside one `try` block whose graph accesses can raise;
the embedding takes the whole graph interaction as an `Except` value: `error`
is a graph-access failure caught by the handler, `ok` carries the query rows. -/

/-- A single-quote character, used in the interpolated message strings. -/
def squote : String := String.mk [Char.ofNat 39]

/-- One row of the shared-methodology query in `find_analogies`. -/
structure MethodMatchRow where
  method : String
  source_papers : List String
  target_papers : List String
deriving DecidableEq

/-- One analogy record produced by `find_analogies` (fields of the two record
shapes merged; unused fields of a shape are `none`/`[]`). -/
structure AnalogyRecord where
  analogy_type : String
  shared_method : Option String
  source_examples : List String
  target_examples : List String
  bridge_concept : Option String
  insight : String
  transferability_score : ℚ
deriving DecidableEq

/-- Embedding of `find_analogies`: on failure the handler returns `[]`;
otherwise the shared-method rows become methodological analogies (score 0.8)
and, only if there are none, the bridge concepts (capped at `max_analogies`)
become conceptual analogies (score 0.6). -/
def find_analogies (max_analogies : ℕ)
    (graph_data : Except String (List MethodMatchRow × List String)) :
    List AnalogyRecord :=
  match graph_data with
  | .error _ => []
  | .ok (method_rows, bridges) =>
    let analogies := method_rows.map (fun r =>
      { analogy_type := "methodological"
        shared_method := some r.method
        source_examples := r.source_papers
        target_examples := r.target_papers
        bridge_concept := none
        insight := "Method " ++ squote ++ r.method ++ squote ++
          " successfully used in both domains"
        transferability_score := 0.8 })
    if analogies.isEmpty then
      (bridges.take max_analogies).map (fun b =>
        { analogy_type := "conceptual"
          shared_method := none
          source_examples := []
          target_examples := []
          bridge_concept := some b
          insight := "Concept " ++ squote ++ b ++ squote ++ " connects both domains"
          transferability_score := 0.6 })
    else analogies

/-- One row of the citation query in `detect_contradictions`. -/
structure CitationPairRow where
  citing_paper : String
  citing_title : String
  cited_paper : String
  cited_title : String
deriving DecidableEq

/-- One candidate contradiction record. -/
structure ContradictionRecord where
  contradiction_type : String
  paper1_id : String
  paper1_title : String
  paper2_id : String
  paper2_title : String
  confidence : ℚ
  requires_investigation : Bool
deriving DecidableEq

/-- Embedding of `detect_contradictions`: `[]` on failure, otherwise one
citation_based record (confidence 0.6) per returned row. -/
def detect_contradictions
    (graph_data : Except String (List CitationPairRow)) : List ContradictionRecord :=
  match graph_data with
  | .error _ => []
  | .ok rows => rows.map (fun r =>
      { contradiction_type := "citation_based"
        paper1_id := r.citing_paper
        paper1_title := r.citing_title
        paper2_id := r.cited_paper
        paper2_title := r.cited_title
        confidence := 0.6
        requires_investigation := true })

/-- One `missing_connections` entry of `analyze_research_gaps`. -/
structure MissingConnection where
  concept : String
  current_papers : ℕ
  opportunity_score : ℚ
  recommendation : String
deriving DecidableEq

/-- One `under_explored_methods` entry of `analyze_research_gaps`. -/
structure UnderExploredMethod where
  method : String
  status : String
  potential : String
  recommendation : String
deriving DecidableEq

/-- Result of `analyze_research_gaps`: the gaps record on success, and the
`{"error": str(e)}` record (NOT an empty gaps record) on failure. -/
inductive GapsResult where
  | failure (message : String)
  | gaps (missing_connections : List MissingConnection)
      (under_explored_methods : List UnderExploredMethod)
      (novel_combinations : List String)
deriving DecidableEq

/-- Embedding of `analyze_research_gaps`; the concept rows are
(name, paper_count) pairs, the method rows are methodology names. -/
def analyze_research_gaps (research_area : String)
    (graph_data : Except String (List (String × ℕ) × List String)) : GapsResult :=
  match graph_data with
  | .error e => .failure e
  | .ok (concept_rows, method_rows) =>
    .gaps
      (concept_rows.map (fun r =>
        { concept := r.1
          current_papers := r.2
          opportunity_score := 1.0 - ((r.2 : ℚ) / 10)
          recommendation := "Explore connections between " ++ research_area ++
            " and " ++ r.1 }))
      (method_rows.map (fun m =>
        { method := m
          status := "not_applied"
          potential := "high"
          recommendation := "Apply " ++ m ++ " to " ++ research_area }))
      []

/-- One year/paper-count row of the lifecycle query (one row per distinct
year, ordered ascending). -/
structure TimelineEntry where
  year : ℤ
  papers : ℕ
deriving DecidableEq

/-- Result of `track_concept_lifecycle`: an error record when the graph
access fails or when the timeline is empty, otherwise the lifecycle report. -/
inductive LifecycleResult where
  | failure (message : String)
  | report (first_appeared : ℤ) (total_years : ℕ) (lifecycle_stage : String)
      (growth_rate : ℚ) (timeline : List TimelineEntry) (prediction : String)
deriving DecidableEq

/-- Embedding of `GraphReasoningService._predict_trajectory`. -/
def _predict_trajectory (timeline : List TimelineEntry) (stage : String) : String :=
  if stage = "emerging" then "Concept is new and gaining attention"
  else if stage = "rapid_growth" then "Expect continued strong growth in next 2-3 years"
  else if stage = "steady_growth" then "Stable research area with consistent output"
  else if stage = "mature" then "Well-established field, may plateau soon"
  else "Declining interest, may be superseded by newer concepts"

/-- Embedding of `track_concept_lifecycle`: empty timeline gives the
`"No temporal data available"` error record; otherwise
`growth_rate = recent(year >= 2020) / early(year < 2015, 1 when no early
years)` and the stage classification, where fewer than 3 timeline entries
short-circuits to "emerging". -/
def track_concept_lifecycle
    (graph_data : Except String (List TimelineEntry)) : LifecycleResult :=
  match graph_data with
  | .error e => .failure e
  | .ok timeline =>
    if timeline.isEmpty then .failure "No temporal data available"
    else
      let recent_years := timeline.filter (fun t => t.year ≥ 2020)
      let early_years := timeline.filter (fun t => t.year < 2015)
      let total_recent := (recent_years.map (fun t => t.papers)).sum
      let total_early := if early_years.isEmpty then 1
        else (early_years.map (fun t => t.papers)).sum
      let growth_rate : ℚ := if total_early > 0
        then (total_recent : ℚ) / (total_early : ℚ) else 0
      let stage :=
        if timeline.length < 3 then "emerging"
        else if growth_rate > 2 then "rapid_growth"
        else if growth_rate > 1 then "steady_growth"
        else if growth_rate > 0.5 then "mature"
        else "declining"
      .report (timeline.headD ⟨0, 0⟩).year timeline.length stage growth_rate
        timeline (_predict_trajectory timeline stage)

/-- The reported `lifecycle_stage`, when the result is not an error record. -/
def lifecycle_stage_of : LifecycleResult → Option String
  | .failure _ => none
  | .report _ _ stage _ _ _ => some stage

/-- One row of the multi-hop citation query in
`calculate_influence_propagation`. -/
structure CitingPaperRow where
  citing_id : String
  title : String
  year : ℤ
  distance : ℕ
deriving DecidableEq

/-- One step of building the per-distance buckets (`defaultdict(list)` keyed
by hop distance, in insertion order; only the bucket sizes matter, so the
embedding keeps counts). -/
def add_to_influence_map (m : List (ℕ × ℕ)) (distance : ℕ) : List (ℕ × ℕ) :=
  match m with
  | [] => [(distance, 1)]
  | (d, c) :: rest =>
    if d = distance then (d, c + 1) :: rest
    else (d, c) :: add_to_influence_map rest distance

/-- The `influence_map` of `calculate_influence_propagation` as
(distance, bucket size) pairs in first-seen order. -/
def build_influence_map (rows : List CitingPaperRow) : List (ℕ × ℕ) :=
  rows.foldl (fun m r => add_to_influence_map m r.distance) []

/-- Result of `calculate_influence_propagation`: the `{"error": ...}` record
on failure, otherwise the influence report. -/
inductive InfluenceResult where
  | failure (message : String)
  | report (direct_citations : ℕ) (indirect_citations : ℕ)
      (influence_score : ℝ) (max_depth_reached : ℕ)

/-- Embedding of `calculate_influence_propagation`: buckets citing papers by
hop distance, decays each bucket by `1/distance^1.5`, sums to the influence
score (rounded to 2 decimals), and reports direct (distance 1) and indirect
(distance > 1) citation counts and the deepest distance reached. -/
noncomputable def calculate_influence_propagation
    (graph_data : Except String (List CitingPaperRow)) : InfluenceResult :=
  match graph_data with
  | .error e => .failure e
  | .ok rows =>
    let influence_map := build_influence_map rows
    let total_influence : ℝ :=
      (influence_map.map (fun dc => (dc.2 : ℝ) * (1.0 / ((dc.1 : ℝ) ^ (1.5 : ℝ))))).sum
    .report ((influence_map.lookup 1).getD 0)
      (((influence_map.filter (fun dc => dc.1 > 1)).map (fun dc => dc.2)).sum)
      (((round (total_influence * 100) : ℤ) : ℝ) / 100)
      (if influence_map.isEmpty then 0 else (influence_map.map (fun dc => dc.1)).foldl max 0)

/-- One row of the papers-discussing-all-concepts query in
`find_synthesis_paths`. -/
structure SynthesisPaperRow where
  paper_id : String
  title : String
  year : ℤ
deriving DecidableEq

/-- One row of the shared-methodology query in `find_synthesis_paths`. -/
structure SynthesisMethodRow where
  method : String
  covered_concepts : List String
  concept_count : ℕ
deriving DecidableEq

/-- One synthesis path record (fields of the two record shapes merged). -/
structure SynthesisPath where
  synthesis_type : String
  paper_id : Option String
  title : Option String
  year : Option ℤ
  concepts_combined : List String
  shared_method : Option String
  concepts_covered : List String
  novelty : String
  recommendation : Option String
deriving DecidableEq

/-- Embedding of `find_synthesis_paths`: fewer than 2 concepts returns `[]`
before any graph access; otherwise existing-synthesis records (novelty
"low") then methodological-synthesis records (novelty "medium"). -/
def find_synthesis_paths (concepts : List String)
    (graph_data : Except String (List SynthesisPaperRow × List SynthesisMethodRow)) :
    List SynthesisPath :=
  if concepts.length < 2 then []
  else
    match graph_data with
    | .error _ => []
    | .ok (paper_rows, method_rows) =>
      paper_rows.map (fun r =>
        { synthesis_type := "existing_synthesis"
          paper_id := some r.paper_id
          title := some r.title
          year := some r.year
          concepts_combined := concepts
          shared_method := none
          concepts_covered := []
          novelty := "low"
          recommendation := none }) ++
      method_rows.map (fun r =>
        { synthesis_type := "methodological_synthesis"
          paper_id := none
          title := none
          year := none
          concepts_combined := []
          shared_method := some r.method
          concepts_covered := r.covered_concepts
          novelty := "medium"
          recommendation := some ("Apply " ++ r.method ++ " to synthesize " ++
            String.intercalate ", " concepts) })

/-- Claim C4 counterexample: with an empty timeline (zero distinct years)
`track_concept_lifecycle` returns the `"No temporal data available"` error
record, which carries no lifecycle stage at all — not the stage "emerging"
the claim requires for timelines with fewer than 3 years "including zero". -/
theorem c4_counterexample :
    track_concept_lifecycle (Except.ok []) =
      LifecycleResult.failure "No temporal data available" ∧
    lifecycle_stage_of (track_concept_lifecycle (Except.ok [])) ≠ some "emerging" :=
  ⟨rfl, by decide⟩

/-- Claim C4 (amended): a non-empty timeline with fewer than 3 entries (one
or two distinct years) is always classified "emerging" regardless of the
computed growth rate, while an empty timeline yields the
`"No temporal data available"` error record instead. -/
theorem c4_amended_emerging_stage :
    (∀ r : TimelineEntry,
      lifecycle_stage_of (track_concept_lifecycle (Except.ok [r])) = some "emerging") ∧
    (∀ r1 r2 : TimelineEntry,
      lifecycle_stage_of (track_concept_lifecycle (Except.ok [r1, r2])) = some "emerging") ∧
    track_concept_lifecycle (Except.ok []) =
      LifecycleResult.failure "No temporal data available" :=
  ⟨fun _ => rfl, fun _ _ => rfl, rfl⟩

/-- Claim C8: `find_synthesis_paths` on fewer than 2 concepts (the empty
list or a singleton) returns the empty sequence whatever the state of the
graph — the result does not depend on the graph data, reflecting that the
length guard precedes any graph query in the source. -/
theorem c8_synthesis_paths_short_input :
    (∀ graph_data, find_synthesis_paths [] graph_data = []) ∧
    (∀ (x : String) graph_data, find_synthesis_paths [x] graph_data = []) :=
  ⟨fun _ => rfl, fun _ _ => rfl⟩

/-- Claim C3 counterexample: on a graph-access failure
`analyze_research_gaps` returns the `{"error": message}` record, which is
not the empty gaps result — so not every Graph Reasoning Engine operation
returns an empty result on failure. -/
theorem c3_counterexample :
    analyze_research_gaps "area" (Except.error "graph unavailable") =
      GapsResult.failure "graph unavailable" ∧
    analyze_research_gaps "area" (Except.error "graph unavailable") ≠
      GapsResult.gaps [] [] [] :=
  ⟨rfl, by decide⟩

/-! ## Community detection (services/graph_reasoning.py) -/

/-- The collaboration graph built by `detect_research_communities`: a
`defaultdict(set)` in key-insertion order, adjacency kept as an ordered list
of distinct neighbors. -/
abbrev CollabGraph := List (String × List String)

/-- `graph.get(node, set())`. -/
def neighbors (graph : CollabGraph) (node : String) : List String :=
  (graph.lookup node).getD []

/-- `collab_graph[a].add(b)` including key creation, preserving first-seen
key order and neighbor-set semantics. -/
def add_neighbor : CollabGraph → String → String → CollabGraph
  | [], a, b => [(a, [b])]
  | (k, ns) :: rest, a, b =>
    if k = a then (k, if b ∈ ns then ns else ns ++ [b]) :: rest
    else (k, ns) :: add_neighbor rest a b

/-- The collaboration-graph building loop: for each returned author pair,
`collab_graph[a1].add(a2); collab_graph[a2].add(a1)`. -/
def build_collab_graph (rows : List (String × String)) : CollabGraph :=
  rows.foldl (fun g r => add_neighbor (add_neighbor g r.1 r.2) r.2 r.1) []

/-- Total number of adjacency entries, bounding any one neighbor list. -/
def total_adjacency (graph : CollabGraph) : ℕ :=
  (graph.map (fun p => p.2.length)).sum

/-- Number of graph keys not yet visited (with multiplicity). -/
def unvisited_count (graph : CollabGraph) (visited : List String) : ℕ :=
  ((graph.map Prod.fst).filter (fun a => a ∉ visited)).length

lemma neighbors_length_le (graph : CollabGraph) (node : String) :
    (neighbors graph node).length ≤ total_adjacency graph := by
  induction graph with
  | nil => simp [neighbors, total_adjacency]
  | cons p rest ih =>
    rcases p with ⟨k, ns⟩
    by_cases h : node == k
    · simp only [neighbors, List.lookup, h, total_adjacency, List.map_cons, List.sum_cons,
        Option.getD_some]
      omega
    · simp only [neighbors, List.lookup, h, total_adjacency, List.map_cons, List.sum_cons] at *
      omega

lemma neighbors_of_not_key (graph : CollabGraph) (node : String)
    (h : node ∉ graph.map Prod.fst) : neighbors graph node = [] := by
  induction graph with
  | nil => rfl
  | cons p rest ih =>
    rcases p with ⟨k, ns⟩
    simp only [List.map_cons, List.mem_cons, not_or] at h
    have hk : ¬ (node == k) := by
      simp only [beq_iff_eq]
      exact h.1
    simp only [neighbors, List.lookup, hk]
    exact ih h.2

lemma length_filter_cons_le (l : List String) (node : String) (visited : List String) :
    (l.filter (fun a => a ∉ node :: visited)).length ≤
      (l.filter (fun a => a ∉ visited)).length := by
  induction l with
  | nil => simp
  | cons a l ih =>
    by_cases h2 : a ∈ node :: visited
    · by_cases h1 : a ∈ visited
      · simp only [List.filter_cons]
        rw [if_neg (by simp [h2]), if_neg (by simp [h1])]
        exact ih
      · simp only [List.filter_cons]
        rw [if_neg (by simp [h2]), if_pos (by simp [h1])]
        simp only [List.length_cons]
        exact Nat.le_succ_of_le ih
    · have h1 : a ∉ visited := fun hv => h2 (List.mem_cons_of_mem _ hv)
      simp only [List.filter_cons]
      rw [if_pos (by simp [h2]), if_pos (by simp [h1])]
      simp only [List.length_cons]
      exact Nat.succ_le_succ ih

lemma length_filter_cons_lt (l : List String) (node : String) (visited : List String)
    (hmem : node ∈ l) (hnv : node ∉ visited) :
    (l.filter (fun a => a ∉ node :: visited)).length <
      (l.filter (fun a => a ∉ visited)).length := by
  induction l with
  | nil => simp at hmem
  | cons a l ih =>
    by_cases heq : a = node
    · subst heq
      simp only [List.filter_cons]
      rw [if_neg (by simp), if_pos (by simp [hnv])]
      simp only [List.length_cons]
      exact Nat.lt_succ_of_le (length_filter_cons_le l a visited)
    · have htail : node ∈ l := by
        rcases List.mem_cons.mp hmem with h | h
        · exact absurd h.symm heq
        · exact h
      by_cases h2 : a ∈ node :: visited
      · by_cases h1 : a ∈ visited
        · simp only [List.filter_cons]
          rw [if_neg (by simp [h2]), if_neg (by simp [h1])]
          exact ih htail
        · simp only [List.filter_cons]
          rw [if_neg (by simp [h2]), if_pos (by simp [h1])]
          simp only [List.length_cons]
          exact Nat.lt_succ_of_lt (ih htail)
      · have h1 : a ∉ visited := fun hv => h2 (List.mem_cons_of_mem _ hv)
        simp only [List.filter_cons]
        rw [if_pos (by simp [h2]), if_pos (by simp [h1])]
        simp only [List.length_cons]
        exact Nat.succ_lt_succ (ih htail)

lemma unvisited_cons_le (graph : CollabGraph) (node : String) (visited : List String) :
    unvisited_count graph (node :: visited) ≤ unvisited_count graph visited :=
  length_filter_cons_le _ _ _

lemma unvisited_cons_lt (graph : CollabGraph) (node : String) (visited : List String)
    (hmem : node ∈ graph.map Prod.fst) (hnv : node ∉ visited) :
    unvisited_count graph (node :: visited) < unvisited_count graph visited :=
  length_filter_cons_lt _ _ _ hmem hnv

/-- Embedding of `GraphReasoningService._bfs_community`: the breadth-first
queue loop over the collaboration graph. Popping an already visited node
skips it; otherwise the node joins both the visited set and the community,
and its not-yet-visited neighbors are appended to the queue. Returns the
community together with the final (shared, mutated in the source) visited
set. -/
def _bfs_community (graph : CollabGraph) (queue visited community : List String) :
    List String × List String :=
  match queue with
  | [] => (community, visited)
  | node :: rest =>
    if h : node ∈ visited then
      _bfs_community graph rest visited community
    else
      _bfs_community graph
        (rest ++ (neighbors graph node).filter (fun x => x ∉ node :: visited))
        (node :: visited) (node :: community)
termination_by unvisited_count graph visited * (total_adjacency graph + 1) + queue.length
decreasing_by
  · simp only [List.length_cons]
    exact Nat.add_lt_add_left (Nat.lt_succ_self _) _
  · simp only [List.length_append, List.length_cons]
    by_cases hmem : node ∈ graph.map Prod.fst
    · have h1 : unvisited_count graph (node :: visited) < unvisited_count graph visited :=
        unvisited_cons_lt graph node visited hmem h
      have h1' : unvisited_count graph (node :: visited) + 1 ≤ unvisited_count graph visited :=
        h1
      have hmul : (unvisited_count graph (node :: visited) + 1) * (total_adjacency graph + 1) ≤
          unvisited_count graph visited * (total_adjacency graph + 1) :=
        Nat.mul_le_mul_right _ h1'
      have hexp : (unvisited_count graph (node :: visited) + 1) * (total_adjacency graph + 1) =
          unvisited_count graph (node :: visited) * (total_adjacency graph + 1) +
            (total_adjacency graph + 1) := by ring
      have hf : ((neighbors graph node).filter (fun x => x ∉ node :: visited)).length ≤
          total_adjacency graph :=
        le_trans (List.length_filter_le _ _) (neighbors_length_le graph node)
      omega
    · have hnil : neighbors graph node = [] := neighbors_of_not_key graph node hmem
      have h1 : unvisited_count graph (node :: visited) ≤ unvisited_count graph visited :=
        unvisited_cons_le graph node visited
      have hmul : unvisited_count graph (node :: visited) * (total_adjacency graph + 1) ≤
          unvisited_count graph visited * (total_adjacency graph + 1) :=
        Nat.mul_le_mul_right _ h1
      simp only [hnil, List.filter_nil, List.length_nil]
      omega

/-- Invariants of the BFS loop: the visited set only grows, and every member
of the returned community was either already in the accumulator or is newly
visited (in the final visited set but not in the initial one). -/
lemma bfs_community_spec (graph : CollabGraph)
    (queue visited community : List String) :
    (∀ a, a ∈ visited → a ∈ (_bfs_community graph queue visited community).2) ∧
    (∀ a, a ∈ (_bfs_community graph queue visited community).1 →
      a ∈ community ∨ ((a ∈ (_bfs_community graph queue visited community).2) ∧
        a ∉ visited)) := by
  induction queue, visited, community using _bfs_community.induct graph with
  | case1 visited community =>
    rw [_bfs_community]
    exact ⟨fun a ha => ha, fun a ha => Or.inl ha⟩
  | case2 visited community node rest h ih =>
    rw [_bfs_community]
    simp only [dif_pos h]
    exact ih
  | case3 visited community node rest h ih =>
    rw [_bfs_community]
    simp only [dif_neg h]
    refine ⟨?_, ?_⟩
    · intro a ha
      exact ih.1 a (List.mem_cons_of_mem _ ha)
    · intro a ha
      rcases ih.2 a ha with hc | ⟨hv, hnv⟩
      · rcases List.mem_cons.mp hc with heq | hcomm
        · subst heq
          exact Or.inr ⟨ih.1 a (List.mem_cons_self a visited), h⟩
        · exact Or.inl hcomm
      · exact Or.inr ⟨hv, fun hav => hnv (List.mem_cons_of_mem _ hav)⟩

/-- One reported research community. -/
structure Community where
  community_type : String
  members : List String
  size : ℕ
  cohesion : String
deriving DecidableEq

/-- The `for author in collab_graph` loop of `detect_research_communities`:
skip visited authors, otherwise run the BFS from that author (threading the
shared visited set) and report the component when it reaches the minimum
size. -/
def detect_loop (graph : CollabGraph) (min_community_size : ℕ) :
    List String → List String → List Community → List Community
  | [], _, communities => communities
  | author :: rest, visited, communities =>
    if author ∈ visited then
      detect_loop graph min_community_size rest visited communities
    else
      let bc := _bfs_community graph [author] visited []
      if bc.1.length ≥ min_community_size then
        detect_loop graph min_community_size rest bc.2
          (communities ++ [⟨"author_collaboration", bc.1, bc.1.length, "high"⟩])
      else
        detect_loop graph min_community_size rest bc.2 communities

/-- Embedding of `detect_research_communities`: `[]` on graph-access
failure; otherwise builds the collaboration graph from the returned author
pairs (already filtered to >= 2 joint papers by the query) and reports the
connected components of size at least `min_community_size`. -/
def detect_research_communities
    (graph_data : Except String (List (String × String)))
    (min_community_size : ℕ) : List Community :=
  match graph_data with
  | .error _ => []
  | .ok rows =>
    let collab_graph := build_collab_graph rows
    detect_loop collab_graph min_community_size (collab_graph.map Prod.fst) [] []

/-- Disjointness relation between two reported communities. -/
def DisjointCommunities (c1 c2 : Community) : Prop :=
  ∀ a, a ∈ c1.members → a ∉ c2.members

/-- Invariant of the outer loop: assuming the accumulated communities are
pairwise disjoint, sized correctly, and contained in the visited set, the
loop's result is pairwise disjoint and sized correctly. -/
lemma detect_loop_spec (graph : CollabGraph) (min_community_size : ℕ) :
    ∀ (authors visited : List String) (communities : List Community),
      (∀ c ∈ communities, ∀ a, a ∈ c.members → a ∈ visited) →
      List.Pairwise DisjointCommunities communities →
      (∀ c ∈ communities, min_community_size ≤ c.size ∧ c.size = c.members.length) →
      List.Pairwise DisjointCommunities
          (detect_loop graph min_community_size authors visited communities) ∧
        (∀ c ∈ detect_loop graph min_community_size authors visited communities,
          min_community_size ≤ c.size ∧ c.size = c.members.length) := by
  intro authors
  induction authors with
  | nil =>
    intro visited communities hvis hpair hsize
    exact ⟨hpair, hsize⟩
  | cons author rest ih =>
    intro visited communities hvis hpair hsize
    rw [detect_loop]
    by_cases hv : author ∈ visited
    · rw [if_pos hv]
      exact ih visited communities hvis hpair hsize
    · rw [if_neg hv]
      have hbfs := bfs_community_spec graph [author] visited []
      set bc := _bfs_community graph [author] visited [] with hbc
      have hnew : ∀ a, a ∈ bc.1 → a ∈ bc.2 ∧ a ∉ visited := by
        intro a ha
        rcases hbfs.2 a ha with hfalse | hok
        · simp at hfalse
        · exact hok
      by_cases hlen : bc.1.length ≥ min_community_size
      · rw [if_pos hlen]
        apply ih
        · intro c hc a ha
          rcases List.mem_append.mp hc with hold | hnewc
          · exact hbfs.1 a (hvis c hold a ha)
          · simp only [List.mem_singleton] at hnewc
            subst hnewc
            exact (hnew a ha).1
        · rw [List.pairwise_append]
          refine ⟨hpair, List.pairwise_singleton _ _, ?_⟩
          intro c1 hc1 c2 hc2 a ha1
          simp only [List.mem_singleton] at hc2
          subst hc2
          intro ha2
          exact (hnew a ha2).2 (hvis c1 hc1 a ha1)
        · intro c hc
          rcases List.mem_append.mp hc with hold | hnewc
          · exact hsize c hold
          · simp only [List.mem_singleton] at hnewc
            subst hnewc
            exact ⟨hlen, rfl⟩
      · rw [if_neg hlen]
        apply ih
        · intro c hc a ha
          exact hbfs.1 a (hvis c hc a ha)
        · exact hpair
        · exact hsize

/-- Claim C9: the communities reported by `detect_research_communities` are
pairwise disjoint (no author is a member of two reported communities) and
each reported community has size at least `min_community_size` (with the
reported size equal to the number of members). -/
theorem c9_communities_disjoint_and_min_size
    (graph_data : Except String (List (String × String)))
    (min_community_size : ℕ) :
    List.Pairwise DisjointCommunities
        (detect_research_communities graph_data min_community_size) ∧
      (detect_research_communities graph_data min_community_size).Forall
        (fun c => min_community_size ≤ c.size ∧ c.size = c.members.length) := by
  match graph_data with
  | .error e =>
    exact ⟨List.Pairwise.nil, by simp [detect_research_communities]⟩
  | .ok rows =>
    have h := detect_loop_spec (build_collab_graph rows) min_community_size
      ((build_collab_graph rows).map Prod.fst) [] []
      (by intro c hc; simp at hc) List.Pairwise.nil (by intro c hc; simp at hc)
    refine ⟨h.1, ?_⟩
    rw [List.forall_iff_forall_mem]
    exact h.2

/-- Claim C3 (amended): on a graph-access failure no Graph Reasoning Engine
operation raises; the list-valued operations (analogies, contradictions,
synthesis paths, community detection) return an empty list, while the
record-valued operations (research gaps, concept lifecycle, influence
propagation) return a structured error record carrying the failure message
instead of an empty result. -/
theorem c3_amended_failure_behaviour (e : String) (max_analogies : ℕ)
    (research_area : String) (concepts : List String) (min_community_size : ℕ) :
    find_analogies max_analogies (Except.error e) = [] ∧
    detect_contradictions (Except.error e) = [] ∧
    analyze_research_gaps research_area (Except.error e) = GapsResult.failure e ∧
    track_concept_lifecycle (Except.error e) = LifecycleResult.failure e ∧
    calculate_influence_propagation (Except.error e) = InfluenceResult.failure e ∧
    find_synthesis_paths concepts (Except.error e) = [] ∧
    detect_research_communities (Except.error e) min_community_size = [] := by
  refine ⟨rfl, rfl, rfl, rfl, rfl, ?_, rfl⟩
  by_cases h : concepts.length < 2 <;> simp [find_synthesis_paths, h]

/-! ## Weak-memory classification thresholds (services/memory_consolidation.py) -/

open Classical in
/-- The `weak_memories` count of `generate_memory_report`: the number of
fetched memories whose strength is strictly below 0.3. -/
noncomputable def generate_report_weak_count
    (memories : List Memory) (current_time : ℝ) : ℕ :=
  ((memories.map (fun m => calculate_memory_strength m current_time)).filter
    (fun s => s < 0.3)).length

open Classical in
/-- The `weak_memories` count of `consolidate_memories`: strengths are
computed, sorted descending (`reverse=True`), and the prune set is the
memories with strength strictly below 0.2. -/
noncomputable def consolidate_weak_count
    (memories : List Memory) (current_time : ℝ) : ℕ :=
  let memory_strengths :=
    memories.map (fun m => calculate_memory_strength m current_time)
  let sorted := List.insertionSort (fun a b => b ≤ a) memory_strengths
  (sorted.filter (fun s => s < 0.2)).length

lemma length_filter_weak_mono (l : List ℝ) :
    (l.filter (fun s => decide (s < 0.2))).length ≤
      (l.filter (fun s => decide (s < 0.3))).length := by
  induction l with
  | nil => simp
  | cons a l ih =>
    by_cases h2 : a < 0.2
    · have h3 : a < 0.3 := by linarith
      simp only [List.filter_cons]
      rw [if_pos (by simp [h2]), if_pos (by simp [h3])]
      simpa using ih
    · by_cases h3 : a < 0.3
      · simp only [List.filter_cons]
        rw [if_neg (by simp [h2]), if_pos (by simp [h3])]
        simp only [List.length_cons]
        exact Nat.le_succ_of_le ih
      · simp only [List.filter_cons]
        rw [if_neg (by simp [h2]), if_neg (by simp [h3])]
        exact ih

/-- The concrete scenario: timestamp 66 days in the past, access_count
absent (so 1). The strength is `exp(-2.2 / (ln 2 + 1))`, which lies in
[0.2, 0.3). -/
lemma scenario_strength_eq :
    calculate_memory_strength ⟨.parsed 0, none⟩ (66 * 86400) =
      Real.exp (-(2.2 / (Real.log 2 + 1))) := by
  have hl2 : (0 : ℝ) < Real.log 2 := Real.log_pos (by norm_num)
  show min 1.0 (Real.exp (-((66 * 86400 - (0:ℝ)) / 86400) /
      ((Real.log (((1:ℕ):ℝ) + 1) + 1) * 30))) = _
  have h1 : ((1:ℕ):ℝ) + 1 = 2 := by norm_num
  rw [h1]
  have h2 : -((66 * 86400 - (0:ℝ)) / 86400) / ((Real.log 2 + 1) * 30) =
      -(2.2 / (Real.log 2 + 1)) := by
    have hL : Real.log 2 + 1 ≠ 0 := by positivity
    field_simp
    ring
  rw [h2]
  apply min_eq_right
  have hx0 : -(2.2 / (Real.log 2 + 1)) ≤ 0 := by
    have : (0:ℝ) ≤ 2.2 / (Real.log 2 + 1) := by positivity
    linarith
  have := Real.exp_le_one_iff.mpr hx0
  linarith

lemma scenario_strength_bounds :
    0.2 ≤ calculate_memory_strength ⟨.parsed 0, none⟩ (66 * 86400) ∧
    calculate_memory_strength ⟨.parsed 0, none⟩ (66 * 86400) < 0.3 := by
  have hl2 : (0 : ℝ) < Real.log 2 := Real.log_pos (by norm_num)
  have hlo := Real.log_two_gt_d9
  have hhi := Real.log_two_lt_d9
  rw [scenario_strength_eq]
  constructor
  · have hxle : 2.2 / (Real.log 2 + 1) ≤ 2 * Real.log 2 := by
      rw [div_le_iff₀ (by linarith)]
      nlinarith [hlo, sq_nonneg (Real.log 2 - 0.6931471803)]
    have h4 : Real.exp (2 * Real.log 2) = 4 := by
      rw [show (2:ℝ) * Real.log 2 = ((2:ℕ):ℝ) * Real.log 2 by norm_num,
        Real.exp_nat_mul, Real.exp_log (by norm_num : (0:ℝ) < 2)]
      norm_num
    have hexpxle : Real.exp (2.2 / (Real.log 2 + 1)) ≤ 4 := by
      calc Real.exp (2.2 / (Real.log 2 + 1)) ≤ Real.exp (2 * Real.log 2) :=
            Real.exp_le_exp.mpr hxle
        _ = 4 := h4
    rw [Real.exp_neg]
    have hpos : (0:ℝ) < Real.exp (2.2 / (Real.log 2 + 1)) := Real.exp_pos _
    calc (0.2:ℝ) = (5:ℝ)⁻¹ := by norm_num
      _ ≤ (Real.exp (2.2 / (Real.log 2 + 1)))⁻¹ :=
          inv_anti₀ hpos (by linarith)
  · have hxge : (1.2992 : ℝ) ≤ 2.2 / (Real.log 2 + 1) := by
      rw [le_div_iff₀ (by linarith)]
      linarith
    have hbase : (1.0812 : ℝ) ≤ Real.exp (2.2 / (Real.log 2 + 1) / 16) := by
      have := Real.add_one_le_exp (2.2 / (Real.log 2 + 1) / 16)
      linarith
    have h16 : Real.exp (2.2 / (Real.log 2 + 1)) =
        (Real.exp (2.2 / (Real.log 2 + 1) / 16)) ^ (16:ℕ) := by
      rw [← Real.exp_nat_mul]
      congr 1
      push_cast
      ring
    have hgt : (10:ℝ)/3 < Real.exp (2.2 / (Real.log 2 + 1)) := by
      rw [h16]
      calc (10:ℝ)/3 < (1.0812:ℝ) ^ (16:ℕ) := by norm_num
        _ ≤ (Real.exp (2.2 / (Real.log 2 + 1) / 16)) ^ (16:ℕ) :=
            pow_le_pow_left₀ (by norm_num) hbase 16
    rw [Real.exp_neg]
    calc (Real.exp (2.2 / (Real.log 2 + 1)))⁻¹ < ((10:ℝ)/3)⁻¹ :=
          inv_strictAnti₀ (by norm_num) hgt
      _ = 0.3 := by norm_num

/-- Claim C10: `generate_memory_report` counts as weak the memories with
strength strictly below 0.3 while `consolidate_memories` uses strictly below
0.2 (so the consolidation count never exceeds the report count), and a
concrete memory whose strength lies in [0.2, 0.3) — 66 days old, default
access count — is counted weak by the report but not by consolidation. -/
theorem c10_weak_threshold_mismatch :
    (∀ (memories : List Memory) (current_time : ℝ),
      generate_report_weak_count memories current_time =
        ((memories.map (fun m => calculate_memory_strength m current_time)).filter
          (fun s => s < 0.3)).length ∧
      consolidate_weak_count memories current_time =
        ((memories.map (fun m => calculate_memory_strength m current_time)).filter
          (fun s => s < 0.2)).length ∧
      consolidate_weak_count memories current_time ≤
        generate_report_weak_count memories current_time) ∧
    (0.2 ≤ calculate_memory_strength ⟨.parsed 0, none⟩ (66 * 86400) ∧
     calculate_memory_strength ⟨.parsed 0, none⟩ (66 * 86400) < 0.3 ∧
     generate_report_weak_count [⟨.parsed 0, none⟩] (66 * 86400) = 1 ∧
     consolidate_weak_count [⟨.parsed 0, none⟩] (66 * 86400) = 0) := by
  have hperm : ∀ (l : List ℝ),
      ((List.insertionSort (fun a b => b ≤ a) l).filter (fun s => s < 0.2)).length =
        (l.filter (fun s => s < 0.2)).length :=
    fun l => ((List.perm_insertionSort _ l).filter _).length_eq
  constructor
  · intro memories current_time
    refine ⟨rfl, hperm _, ?_⟩
    show ((List.insertionSort (fun a b => b ≤ a)
        (memories.map (fun m => calculate_memory_strength m current_time))).filter
          (fun s => s < 0.2)).length ≤
      ((memories.map (fun m => calculate_memory_strength m current_time)).filter
        (fun s => s < 0.3)).length
    rw [hperm]
    exact length_filter_weak_mono _
  · obtain ⟨hlow, hhigh⟩ := scenario_strength_bounds
    refine ⟨hlow, hhigh, ?_, ?_⟩
    · rw [generate_report_weak_count]
      simp only [List.map_cons, List.map_nil]
      rw [List.filter_cons_of_pos (by simpa using hhigh), List.filter_nil]
      rfl
    · rw [consolidate_weak_count]
      simp only [List.map_cons, List.map_nil, List.insertionSort, List.orderedInsert]
      rw [List.filter_cons_of_neg (by simp; linarith), List.filter_nil]
      rfl
